import Mathlib

/-!
Verification of the CPU configuration engine of PowerTools
(src/backend/src/settings/steam_deck_adv/cpu.rs).

The Rust code is shallowly embedded: each control-file interaction is an
event recorded in a trace, and the outside world (read results and
per-write success/failure) is an explicit environment.  Rust `u64`/`usize`
values are modelled as `Nat` (the code only formats, compares and clamps
them; no wrapping arithmetic occurs).  Fallible operations return an
`Outcome`; a Rust panic (`unwrap` of a failed read, out-of-bounds
`Vec::remove`) is modelled explicitly.
-/

/-- Mirror of `MinMax<T>` (settings/min_max.rs, re-exported by
settings/mod.rs; the definition is not in the sample, so the pair of fields
is modelled from the spec: `{min: T, max: T}`). -/
structure MinMax (α : Type) where
  min : α
  max : α
deriving DecidableEq

/-- Modelled from the spec: the error tag names the setting category
(settings/error.rs is not in the sample); only the CPU tag is exercised
here, the others stand for the remaining categories. -/
inductive SettingVariant where
  | battery
  | cpu
  | gpu
  | general
deriving DecidableEq

/-- Modelled from the spec: `SettingError` carries a free-text cause and a
setting-category tag (settings/error.rs is not in the sample). -/
structure SettingError where
  msg : String
  setting : SettingVariant
deriving DecidableEq

/-- Modelled from the spec: the transient apply-state
`crate::state::steam_deck::Cpu` (not in the sample): `clock_limits_set`,
`do_set_online`, `is_resuming`, all defaulting to `false`. -/
structure SteamDeckCpuState where
  clock_limits_set : Bool := false
  do_set_online : Bool := false
  is_resuming : Bool := false
deriving DecidableEq

/-- Mirror of `struct Cpu` (cpu.rs lines 160-167). -/
structure Cpu where
  online : Bool
  clock_limits : Option (MinMax Nat)
  governor : String
  index : Nat
  state : SteamDeckCpuState
deriving DecidableEq

/-- `usize::MAX` on the 64-bit target. -/
def USIZE_MAX : Nat := 2 ^ 64 - 1

/-- Mirror of `SettingsRange::max` for `Cpu` (cpu.rs lines 388-399). -/
def Cpu.max : Cpu :=
  { online := true
    clock_limits := some { min := 3500, max := 3500 }
    governor := "schedutil"
    index := USIZE_MAX
    state := {} }

/-- Mirror of `SettingsRange::min` for `Cpu` (cpu.rs lines 402-410);
note the envelope's `max` field (500) is below its `min` field (1400). -/
def Cpu.min : Cpu :=
  { online := false
    clock_limits := some { min := 1400, max := 500 }
    governor := "schedutil"
    index := 0
    state := {} }

/-- Rust `Ord::clamp(self, lo, hi)` (callers here always pass `lo ≤ hi`). -/
def rustClamp (x lo hi : Nat) : Nat :=
  if x < lo then lo else if x > hi then hi else x

/-- Mirror of `Cpu::clamp_all` (cpu.rs lines 295-304): the desired min is
clamped between the two envelopes' `min` fields and the desired max
between their `max` fields. -/
def Cpu.clamp_all (c : Cpu) : Cpu :=
  match c.clock_limits with
  | none => c
  | some cl =>
      let max_boost := Cpu.max.clock_limits.get (by decide)
      let min_boost := Cpu.min.clock_limits.get (by decide)
      let newMin := rustClamp cl.min min_boost.min max_boost.min
      let newMax := rustClamp cl.max min_boost.max max_boost.max
      { c with clock_limits := some ⟨newMin, newMax⟩ }

/-- Renders `format!("p {} <slot> {}\n", pair, value)`, the clock-control
parameter line (cpu.rs lines 223, 234, 249, 260). -/
def pLine (pair slot value : Nat) : String :=
  "p " ++ Nat.repr pair ++ " " ++ Nat.repr slot ++ " " ++ Nat.repr value ++ "\n"

/-- The commit terminator written to the clock-control file (cpu.rs line 272). -/
def commitLine : String := "c\n"

/-- `Cpu::max().clock_limits.unwrap().max` (cpu.rs line 249). -/
def defaultMaxClock : Nat := (Cpu.max.clock_limits.get (by decide)).max

/-- `Cpu::min().clock_limits.unwrap().min` (cpu.rs line 260). -/
def defaultMinClock : Nat := (Cpu.min.clock_limits.get (by decide)).min

/-- One attempted control-file write, identifying the target file class
(paths are injective in the core index) and the exact payload. -/
inductive W where
  | online (index : Nat) (value : Nat)
  | mode (payload : String)
  | clock (payload : String)
  | governor (index : Nat) (payload : String)
  | smtctl (payload : String)
deriving DecidableEq

/-- The outside world: `writeOk k` decides whether the k-th attempted write
succeeds; the remaining fields are the results of the reads the code
performs (`none` = the read fails). -/
structure Env where
  writeOk : Nat → Bool
  modeRead : Option String
  presentRead : Option String
  smtRead : Option String
  onlineRead : Nat → Option Nat
  governorRead : Nat → Option String

/-- Result of a Rust `fn(&mut self) -> Result<(), SettingError>` that may
also panic: outcome, the mutated receiver, the writes attempted (in
order), and the next write counter. -/
inductive Outcome where
  | ok
  | err (e : SettingError)
  | panicked
deriving DecidableEq

structure ApplyResult where
  outcome : Outcome
  cpu : Cpu
  tr : List W
  next : Nat
deriving DecidableEq

structure EnsembleResult where
  outcome : Outcome
  cpus : List Cpu
  tr : List W
  next : Nat
deriving DecidableEq

structure ResumeResult where
  outcome : Outcome
  tr : List W
  next : Nat
deriving DecidableEq

/- The source formats each error message with the OS error text, which is
environment-supplied; the model keeps a fixed message per failure site. -/
def msgOnline : String := "Failed to write to cpu online file"
def msgManual : String := "Failed to write `manual` to force-limits file"
def msgClock : String := "Failed to write to clock limits file"
def msgCommit : String := "Failed to write `c` to clock limits file"
def msgGov : String := "Failed to write to governor file"
def msgSmt : String := "Failed to write to smt control file"

/-- Step 6 of `Cpu::set_all` (cpu.rs lines 279-291): governor write, only
when `index == 0 || online`. -/
def Cpu.govStage (c : Cpu) (e : Env) (n : Nat) (tr : List W) : ApplyResult :=
  if c.index == 0 || c.online then
    let tr2 := tr ++ [W.governor c.index c.governor]
    if e.writeOk n then ⟨Outcome.ok, c, tr2, n + 1⟩
    else ⟨Outcome.err ⟨msgGov, SettingVariant.cpu⟩, c, tr2, n + 1⟩
  else ⟨Outcome.ok, c, tr, n⟩

/-- Step 5 of `Cpu::set_all` (cpu.rs lines 271-277): unconditional commit. -/
def Cpu.commitStage (c : Cpu) (e : Env) (n : Nat) (tr : List W) : ApplyResult :=
  let tr2 := tr ++ [W.clock commitLine]
  if e.writeOk n then Cpu.govStage c e (n + 1) tr2
  else ⟨Outcome.err ⟨msgCommit, SettingVariant.cpu⟩, c, tr2, n + 1⟩

/-- Step 4 of `Cpu::set_all` (cpu.rs lines 219-270): clock-bound writes.
With desired limits: mark `clock_limits_set`, write max line then min
line.  Without, but previously set or resuming: clear the mark and write
the factory-default lines.  Otherwise skip to the commit. -/
def Cpu.clockStage (c : Cpu) (e : Env) (n : Nat) (tr : List W) : ApplyResult :=
  match c.clock_limits with
  | some cl =>
      let c2 := { c with state.clock_limits_set := true }
      let tr2 := tr ++ [W.clock (pLine (c2.index / 2) 1 cl.max)]
      if e.writeOk n then
        let tr3 := tr2 ++ [W.clock (pLine (c2.index / 2) 0 cl.min)]
        if e.writeOk (n + 1) then Cpu.commitStage c2 e (n + 2) tr3
        else ⟨Outcome.err ⟨msgClock, SettingVariant.cpu⟩, c2, tr3, n + 2⟩
      else ⟨Outcome.err ⟨msgClock, SettingVariant.cpu⟩, c2, tr2, n + 1⟩
  | none =>
      if c.state.clock_limits_set || c.state.is_resuming then
        let c2 := { c with state.clock_limits_set := false }
        let tr2 := tr ++ [W.clock (pLine (c2.index / 2) 1 defaultMaxClock)]
        if e.writeOk n then
          let tr3 := tr2 ++ [W.clock (pLine (c2.index / 2) 0 defaultMinClock)]
          if e.writeOk (n + 1) then Cpu.commitStage c2 e (n + 2) tr3
          else ⟨Outcome.err ⟨msgClock, SettingVariant.cpu⟩, c2, tr3, n + 2⟩
        else ⟨Outcome.err ⟨msgClock, SettingVariant.cpu⟩, c2, tr2, n + 1⟩
      else Cpu.commitStage c e n tr

/-- Steps 2-3 of `Cpu::set_all` (cpu.rs lines 205-218): the performance
mode is read with `.unwrap()` — a failed read panics; `"manual"` is
written only when the file does not already read `"manual"`. -/
def Cpu.modeStage (c : Cpu) (e : Env) (n : Nat) (tr : List W) : ApplyResult :=
  match e.modeRead with
  | none => ⟨Outcome.panicked, c, tr, n⟩
  | some mode =>
      if mode != "manual" then
        let tr2 := tr ++ [W.mode "manual"]
        if e.writeOk n then Cpu.clockStage c e (n + 1) tr2
        else ⟨Outcome.err ⟨msgManual, SettingVariant.cpu⟩, c, tr2, n + 1⟩
      else Cpu.clockStage c e n tr

/-- Mirror of `Cpu::set_all` (cpu.rs lines 193-293), starting with step 1:
the online flag (as 0/1) is written only when `index != 0 &&
state.do_set_online`. -/
def Cpu.set_all (c : Cpu) (e : Env) (n : Nat) : ApplyResult :=
  if c.index != 0 && c.state.do_set_online then
    let tr := [W.online c.index (if c.online then 1 else 0)]
    if e.writeOk n then Cpu.modeStage c e (n + 1) tr
    else ⟨Outcome.err ⟨msgOnline, SettingVariant.cpu⟩, c, tr, n + 1⟩
  else Cpu.modeStage c e n []

/-- Mirror of `OnSet for Cpu` (cpu.rs lines 349-354): clamp, then apply. -/
def Cpu.on_set (c : Cpu) (e : Env) (n : Nat) : ApplyResult :=
  Cpu.set_all (Cpu.clamp_all c) e n

/-- Mirror of `OnResume for Cpu` (cpu.rs lines 356-362): clone, force
`is_resuming`, run `set_all` on the clone (no clamp), drop the clone. -/
def Cpu.on_resume (c : Cpu) (e : Env) (n : Nat) : ResumeResult :=
  let r := Cpu.set_all { c with state.is_resuming := true } e n
  ⟨r.outcome, r.tr, r.next⟩

/-- Mirror of `struct Cpus` (cpu.rs lines 12-17). -/
structure Cpus where
  cpus : List Cpu
  smt : Bool
  smt_capable : Bool
deriving DecidableEq

/-- The core loop of `Cpus::on_set` (cpu.rs lines 45-48): sets each core's
`do_set_online` from the position `i`, applies it, and propagates the
first failure (the `?` stops the loop). -/
def Cpus.applyFrom (smt : Bool) (e : Env) : List Cpu → Nat → Nat → EnsembleResult
  | [], _, n => ⟨Outcome.ok, [], [], n⟩
  | c :: rest, i, n =>
      let c1 := { c with state.do_set_online := smt || (i % 2 == 0) }
      let r := Cpu.on_set c1 e n
      match r.outcome with
      | Outcome.ok =>
          let r2 := Cpus.applyFrom smt e rest (i + 1) r.next
          ⟨r2.outcome, r.cpu :: r2.cpus, r.tr ++ r2.tr, r2.next⟩
      | o => ⟨o, r.cpu :: rest, r.tr, r.next⟩

/-- Mirror of `OnSet for Cpus` (cpu.rs lines 19-51): optional SMT toggle
write, then the sequential per-core pass. -/
def Cpus.on_set (cs : Cpus) (e : Env) (n : Nat) : EnsembleResult :=
  if cs.smt_capable then
    let payload := if cs.smt then "on" else "off"
    if e.writeOk n then
      let r := Cpus.applyFrom cs.smt e cs.cpus 0 (n + 1)
      ⟨r.outcome, r.cpus, W.smtctl payload :: r.tr, r.next⟩
    else ⟨Outcome.err ⟨msgSmt, SettingVariant.cpu⟩, cs.cpus, [W.smtctl payload], n + 1⟩
  else
    let r := Cpus.applyFrom cs.smt e cs.cpus 0 n
    ⟨r.outcome, r.cpus, r.tr, r.next⟩

/-- The loop of `OnResume for Cpus` (cpu.rs lines 53-60): sequential,
propagating the first failure (the `?` stops the loop). -/
def Cpus.resumeList (e : Env) : List Cpu → Nat → ResumeResult
  | [], n => ⟨Outcome.ok, [], n⟩
  | c :: rest, n =>
      let r := Cpu.on_resume c e n
      match r.outcome with
      | Outcome.ok =>
          let r2 := Cpus.resumeList e rest r.next
          ⟨r2.outcome, r.tr ++ r2.tr, r2.next⟩
      | o => ⟨o, r.tr, r.next⟩

/-- Mirror of `OnResume for Cpus` (cpu.rs lines 53-60). -/
def Cpus.on_resume (cs : Cpus) (e : Env) (n : Nat) : ResumeResult :=
  Cpus.resumeList e cs.cpus n

/-- The tail of `data` after the first `'-'`, if any: models
`data.find('-')` followed by `data.split_off(dash_index + 1)`
(cpu.rs lines 66-67; `'-'` is one byte, so byte and char offsets agree). -/
def afterFirstDash (s : String) : Option String :=
  match (s.toList).findIdx? (fun ch => ch = '-') with
  | none => none
  | some i => some (String.mk ((s.toList).drop (i + 1)))

/-- Rust `str::parse::<usize>`: an optional leading `'+'`, then one or more
ASCII digits, rejecting values above `usize::MAX`. -/
def parseUsize (s : String) : Option Nat :=
  let cs := s.toList
  let ds := match cs with
    | '+' :: rest => rest
    | _ => cs
  if ds = [] then none
  else if ds.all (fun ch => ch.isDigit) then
    let v := ds.foldl (fun a ch => a * 10 + (ch.toNat - 48)) 0
    if v ≤ USIZE_MAX then some v else none
  else none

/-- Mirror of `Cpus::cpu_count` (cpu.rs lines 63-74): a failed read of the
present-range file falls back to `"0-7"`; present-but-unparsable content
yields `none` (with a logged warning in the source). -/
def Cpus.cpu_count (e : Env) : Option Nat :=
  let data := e.presentRead.getD "0-7"
  match afterFirstDash data with
  | some tail =>
      match parseUsize tail with
      | some max_cpu => some (max_cpu + 1)
      | none => none
  | none => none

/-- Rust `str::trim`: strip whitespace from both ends. -/
def rustTrim (s : String) : String :=
  String.mk
    ((((s.toList).dropWhile (fun ch => ch.isWhitespace)).reverse.dropWhile
      (fun ch => ch.isWhitespace)).reverse)

/-- Rust `str::to_lowercase`, restricted to the ASCII letters that the SMT
control file can contain. -/
def rustToLower (s : String) : String :=
  String.mk ((s.toList).map (fun ch =>
    if ch.isUpper then Char.ofNat (ch.toNat + 32) else ch))

/-- Mirror of `Cpus::system_smt_capabilities` (cpu.rs lines 76-81):
(current status, capable). -/
def Cpus.system_smt_capabilities (e : Env) : Bool × Bool :=
  match e.smtRead with
  | some val => (rustToLower (rustTrim val) == "on", true)
  | none => (false, false)

/-- Mirror of `Cpu::from_sys` (cpu.rs lines 306-315). -/
def Cpu.from_sys (e : Env) (cpu_index : Nat) : Cpu :=
  { online := ((e.onlineRead cpu_index).getD 1) != 0
    clock_limits := none
    governor := (e.governorRead cpu_index).getD "schedutil"
    index := cpu_index
    state := {} }

/-- Mirror of `Cpus::system_default` (cpu.rs lines 83-102). -/
def Cpus.system_default (e : Env) : Cpus :=
  match Cpus.cpu_count e with
  | some max_cpu =>
      { cpus := (List.range max_cpu).map (Cpu.from_sys e)
        smt := (Cpus.system_smt_capabilities e).1
        smt_capable := (Cpus.system_smt_capabilities e).2 }
  | none => { cpus := [], smt := false, smt_capable := false }

/-- Modelled from the spec: persisted per-core record
`{online, clock_limits?, governor}` (persist/CpuJson is not in the
sample); `MinMax::from_json` decodes identically at every version. -/
structure CpuJson where
  online : Bool
  clock_limits : Option (MinMax Nat)
  governor : String
deriving DecidableEq

/-- Mirror of `Cpu::from_json` (cpu.rs lines 174-191): version 0 and all
later versions decode identically. -/
def Cpu.from_json (other : CpuJson) (version : Nat) (i : Nat) : Cpu :=
  match version with
  | 0 =>
      { online := other.online
        clock_limits := other.clock_limits
        governor := other.governor
        index := i
        state := {} }
  | _ =>
      { online := other.online
        clock_limits := other.clock_limits
        governor := other.governor
        index := i
        state := {} }

/-- The conversion loop of `Cpus::from_json` (cpu.rs lines 109-117): stop
as soon as the position reaches the live count. -/
def Cpus.convertLoop (other : List CpuJson) (version : Nat)
    (max_cpus : Option Nat) : List Cpu :=
  let truncated := match max_cpus with
    | some m => other.take m
    | none => other
  truncated.enum.map (fun p => Cpu.from_json p.2 version p.1)

/-- The backfill loop of `Cpus::from_json` (cpu.rs lines 121-123):
`for i in result.len()..sys_cpus.cpus.len() { result.push(sys_cpus.cpus.remove(i)) }`.
The iteration count is fixed up front (Rust evaluates the range once);
`sys` shrinks while `i` grows, and `Vec::remove` with `i ≥ sys.length`
panics, modelled as `none`. -/
def Cpus.backfillAux : Nat → List Cpu → List Cpu → Nat → Option (List Cpu)
  | 0, result, _, _ => some result
  | k + 1, result, sys, i =>
      match sys[i]? with
      | none => none
      | some c => Cpus.backfillAux k (result ++ [c]) (sys.eraseIdx i) (i + 1)

/-- Mirror of `Cpus::from_json` (cpu.rs lines 104-131); `none` is the
`Vec::remove` panic in the backfill loop. -/
def Cpus.from_json (other : List CpuJson) (version : Nat) (e : Env) :
    Option Cpus :=
  let can_smt := (Cpus.system_smt_capabilities e).2
  let max_cpus := Cpus.cpu_count e
  let result := Cpus.convertLoop other version max_cpus
  let filled := match max_cpus with
    | some m =>
        if result.length != m then
          let sys := (Cpus.system_default e).cpus
          Cpus.backfillAux (sys.length - result.length) result sys result.length
        else some result
    | none => some result
  filled.map (fun r => { cpus := r, smt := true, smt_capable := can_smt })

/-! ## Trace vocabulary: the write segments named by the specification -/

/-- Segment (a): the online flag as 0/1, when `index != 0` and
`do_set_online`. -/
def specOnlineSeg (c : Cpu) : List W :=
  if c.index != 0 && c.state.do_set_online then
    [W.online c.index (if c.online then 1 else 0)]
  else []

/-- Segment (b): `"manual"` to the performance-mode file, only when that
file does not already read `"manual"`. -/
def specManualSeg (mode : String) : List W :=
  if mode != "manual" then [W.mode "manual"] else []

/-- Segment (c): the clock-bound parameter lines — max line then min line
when limits are desired, the factory-default pair when a previous override
(or a resume) must be cleared, nothing otherwise. -/
def specClockSeg (c : Cpu) : List W :=
  match c.clock_limits with
  | some cl =>
      [W.clock (pLine (c.index / 2) 1 cl.max),
       W.clock (pLine (c.index / 2) 0 cl.min)]
  | none =>
      if c.state.clock_limits_set || c.state.is_resuming then
        [W.clock (pLine (c.index / 2) 1 defaultMaxClock),
         W.clock (pLine (c.index / 2) 0 defaultMinClock)]
      else []

/-- Segment (e): the governor string, exactly when `index == 0 || online`. -/
def specGovSeg (c : Cpu) : List W :=
  if c.index == 0 || c.online then [W.governor c.index c.governor] else []

/-! ## Helper lemmas about the apply stages -/

theorem pLine_ne_commitLine (a b v : Nat) : pLine a b v ≠ commitLine := by
  intro h
  have h2 : (pLine a b v).data = commitLine.data := by rw [h]
  simp only [pLine, commitLine, String.data_append] at h2
  have h3 := congrArg List.head? h2
  simp at h3

theorem specGovSeg_setFlag (c : Cpu) (b : Bool) :
    specGovSeg { c with state.clock_limits_set := b } = specGovSeg c := rfl

theorem govStage_ok (c : Cpu) (e : Env) (n : Nat) (tr : List W)
    (h : (Cpu.govStage c e n tr).outcome = Outcome.ok) :
    (Cpu.govStage c e n tr).tr = tr ++ specGovSeg c ∧
      (Cpu.govStage c e n tr).cpu = c := by
  unfold Cpu.govStage specGovSeg at *
  by_cases hg : (c.index == 0 || c.online) = true
  · by_cases hw : e.writeOk n = true
    · simp [hg, hw]
    · simp [hg, hw] at h
  · simp [hg]

theorem commitStage_ok (c : Cpu) (e : Env) (n : Nat) (tr : List W)
    (h : (Cpu.commitStage c e n tr).outcome = Outcome.ok) :
    (Cpu.commitStage c e n tr).tr = tr ++ [W.clock commitLine] ++ specGovSeg c ∧
      (Cpu.commitStage c e n tr).cpu = c := by
  unfold Cpu.commitStage at *
  by_cases hw : e.writeOk n = true
  · simp only [hw, if_true] at h ⊢
    have h2 := govStage_ok c e (n + 1) (tr ++ [W.clock commitLine]) h
    exact h2
  · simp [hw] at h

theorem clockStage_ok (c : Cpu) (e : Env) (n : Nat) (tr : List W)
    (h : (Cpu.clockStage c e n tr).outcome = Outcome.ok) :
    ∃ b : Bool,
      (Cpu.clockStage c e n tr).tr =
        tr ++ specClockSeg c ++ [W.clock commitLine] ++ specGovSeg c ∧
      (Cpu.clockStage c e n tr).cpu = { c with state.clock_limits_set := b } := by
  obtain ⟨con, ccl, cgov, cidx, ⟨cset, cdo, cres⟩⟩ := c
  rcases ccl with _ | cl
  · by_cases hb : (cset || cres) = true
    · simp only [Cpu.clockStage, hb, if_true] at h ⊢
      by_cases hw1 : e.writeOk n = true
      · simp only [hw1, if_true] at h ⊢
        by_cases hw2 : e.writeOk (n + 1) = true
        · simp only [hw2, if_true] at h ⊢
          obtain ⟨h21, h22⟩ := commitStage_ok _ _ _ _ h
          refine ⟨false, ?_, ?_⟩
          · rw [h21]
            simp [specClockSeg, specGovSeg, hb, List.append_assoc]
          · rw [h22]
        · simp [hw2] at h
      · simp [hw1] at h
    · simp only [Cpu.clockStage, hb, if_false, Bool.false_eq_true] at h ⊢
      obtain ⟨h21, h22⟩ := commitStage_ok _ _ _ _ h
      refine ⟨cset, ?_, ?_⟩
      · rw [h21]
        simp [specClockSeg, hb, List.append_assoc]
      · rw [h22]
  · simp only [Cpu.clockStage] at h ⊢
    by_cases hw1 : e.writeOk n = true
    · simp only [hw1, if_true] at h ⊢
      by_cases hw2 : e.writeOk (n + 1) = true
      · simp only [hw2, if_true] at h ⊢
        obtain ⟨h21, h22⟩ := commitStage_ok _ _ _ _ h
        refine ⟨true, ?_, ?_⟩
        · rw [h21]
          simp [specClockSeg, specGovSeg, List.append_assoc]
        · rw [h22]
      · simp [hw2] at h
    · simp [hw1] at h

theorem modeStage_ok (c : Cpu) (e : Env) (n : Nat) (tr : List W)
    (h : (Cpu.modeStage c e n tr).outcome = Outcome.ok) :
    ∃ mode, e.modeRead = some mode ∧ ∃ b : Bool,
      (Cpu.modeStage c e n tr).tr =
        tr ++ specManualSeg mode ++ specClockSeg c ++ [W.clock commitLine] ++
          specGovSeg c ∧
      (Cpu.modeStage c e n tr).cpu = { c with state.clock_limits_set := b } := by
  rcases hm : e.modeRead with _ | mode
  · simp [Cpu.modeStage, hm] at h
  · refine ⟨mode, rfl, ?_⟩
    simp only [Cpu.modeStage, hm] at h ⊢
    by_cases hmm : (mode != "manual") = true
    · simp only [hmm, if_true] at h ⊢
      by_cases hw : e.writeOk n = true
      · simp only [hw, if_true] at h ⊢
        obtain ⟨b, h21, h22⟩ := clockStage_ok _ _ _ _ h
        refine ⟨b, ?_, h22⟩
        rw [h21]
        simp [specManualSeg, hmm, List.append_assoc]
      · simp [hw] at h
    · simp only [hmm, if_false, Bool.false_eq_true] at h ⊢
      obtain ⟨b, h21, h22⟩ := clockStage_ok _ _ _ _ h
      refine ⟨b, ?_, h22⟩
      rw [h21]
      simp [specManualSeg, hmm, List.append_assoc]

/-- Master shape of a successful `set_all`: the trace is exactly the five
segments (a)-(e) in order, and only `clock_limits_set` may change on the
core. -/
theorem set_all_ok_shape (c : Cpu) (e : Env) (n : Nat)
    (h : (Cpu.set_all c e n).outcome = Outcome.ok) :
    ∃ mode, e.modeRead = some mode ∧ ∃ b : Bool,
      (Cpu.set_all c e n).tr =
        specOnlineSeg c ++ specManualSeg mode ++ specClockSeg c ++
          [W.clock commitLine] ++ specGovSeg c ∧
      (Cpu.set_all c e n).cpu = { c with state.clock_limits_set := b } := by
  unfold Cpu.set_all at h ⊢
  by_cases ho : (c.index != 0 && c.state.do_set_online) = true
  · simp only [ho, if_true] at h ⊢
    by_cases hw : e.writeOk n = true
    · simp only [hw, if_true] at h ⊢
      obtain ⟨mode, hm, b, h21, h22⟩ := modeStage_ok _ _ _ _ h
      refine ⟨mode, hm, b, ?_, h22⟩
      rw [h21]
      simp [specOnlineSeg, ho, List.append_assoc]
    · simp [hw] at h
  · simp only [ho, if_false, Bool.false_eq_true] at h ⊢
    obtain ⟨mode, hm, b, h21, h22⟩ := modeStage_ok _ _ _ _ h
    refine ⟨mode, hm, b, ?_, h22⟩
    rw [h21]
    simp [specOnlineSeg, ho, List.append_assoc]

theorem count_commit_onlineSeg (c : Cpu) :
    (specOnlineSeg c).count (W.clock commitLine) = 0 := by
  unfold specOnlineSeg; split <;> simp

theorem count_commit_manualSeg (m : String) :
    (specManualSeg m).count (W.clock commitLine) = 0 := by
  unfold specManualSeg; split <;> simp

theorem count_commit_clockSeg (c : Cpu) :
    (specClockSeg c).count (W.clock commitLine) = 0 := by
  obtain ⟨con, ccl, cgov, cidx, ⟨cset, cdo, cres⟩⟩ := c
  rcases ccl with _ | cl
  · unfold specClockSeg
    split
    · simp_all
    · split <;> simp [List.count_cons, pLine_ne_commitLine]
  · simp [specClockSeg, List.count_cons, pLine_ne_commitLine]

theorem count_commit_govSeg (c : Cpu) :
    (specGovSeg c).count (W.clock commitLine) = 0 := by
  unfold specGovSeg; split <;> simp

/-- Evaluated form of `Cpu::clamp_all` on a core with desired limits. -/
theorem clamp_all_eval (c : Cpu) (cl : MinMax Nat)
    (h : c.clock_limits = some cl) :
    (Cpu.clamp_all c).clock_limits =
      some ⟨rustClamp cl.min 1400 3500, rustClamp cl.max 500 3500⟩ := by
  obtain ⟨con, ccl, cgov, cidx, cst⟩ := c
  simp only at h
  subst h
  rfl

/-- `clamp_all` touches only the `clock_limits` field. -/
theorem clamp_all_fields (c : Cpu) :
    (Cpu.clamp_all c).index = c.index ∧ (Cpu.clamp_all c).online = c.online ∧
    (Cpu.clamp_all c).governor = c.governor ∧ (Cpu.clamp_all c).state = c.state := by
  unfold Cpu.clamp_all
  rcases c.clock_limits with _ | cl <;> simp

/-- `clamp_all` leaves absent limits absent. -/
theorem clamp_all_none (c : Cpu) (h : c.clock_limits = none) :
    Cpu.clamp_all c = c := by
  unfold Cpu.clamp_all
  rw [h]

/-! ## Shared concrete fixtures -/

/-- A passive environment: every write succeeds, the performance-mode file
already reads `"manual"`, the present range is `"0-7"`, SMT reads `"on"`. -/
def envAllOk : Env :=
  { writeOk := fun _ => true
    modeRead := some "manual"
    presentRead := some "0-7"
    smtRead := some "on"
    onlineRead := fun _ => some 1
    governorRead := fun _ => some "schedutil" }

/-- A core with desired limits, eligible for the online write. -/
def cW1 : Cpu := ⟨true, some ⟨1000, 2000⟩, "schedutil", 2, ⟨false, true, false⟩⟩

/-! ## C1 -/

/-- C1: on every core whose `Cpu::on_set` succeeds, the writes of
`set_all` occur in this strict order: (a) the online flag as 0/1 when
`index != 0` and `do_set_online`; (b) `"manual"` to the performance-mode
file only if it does not already read `"manual"`; (c) when `clock_limits`
is present, the max-bound line `"p <index/2> 1 <max>\n"` then the
min-bound line `"p <index/2> 0 <min>\n"` to the clock-control file;
(d) the commit line `"c\n"` exactly once per apply, after all parameter
lines, even when (c) was skipped; (e) the governor iff `index == 0` or
the core is online. -/
theorem C1_set_all_write_order (c : Cpu) (e : Env) (n : Nat)
    (hok : (Cpu.on_set c e n).outcome = Outcome.ok) :
    ∃ mode ps,
      e.modeRead = some mode ∧
      (Cpu.on_set c e n).tr =
        specOnlineSeg (Cpu.clamp_all c) ++ specManualSeg mode ++ ps ++
          [W.clock commitLine] ++ specGovSeg (Cpu.clamp_all c) ∧
      (∀ w ∈ ps, ∃ s, w = W.clock s ∧ s ≠ commitLine) ∧
      (∀ cl, (Cpu.clamp_all c).clock_limits = some cl →
        ps = [W.clock (pLine ((Cpu.clamp_all c).index / 2) 1 cl.max),
              W.clock (pLine ((Cpu.clamp_all c).index / 2) 0 cl.min)]) ∧
      (Cpu.on_set c e n).tr.count (W.clock commitLine) = 1 := by
  unfold Cpu.on_set at hok ⊢
  obtain ⟨mode, hm, b, h1, h2⟩ := set_all_ok_shape (Cpu.clamp_all c) e n hok
  refine ⟨mode, specClockSeg (Cpu.clamp_all c), hm, h1, ?_, ?_, ?_⟩
  · intro w hw
    generalize hd : Cpu.clamp_all c = d at hw
    obtain ⟨don, dcl, dgov, didx, ⟨dset, ddo, dres⟩⟩ := d
    rcases dcl with _ | cl
    · unfold specClockSeg at hw
      rcases hw2 : (dset || dres) with _ | _
      · simp [hw2] at hw
      · simp [hw2] at hw
        rcases hw with hw | hw <;>
          exact ⟨_, by rw [hw], pLine_ne_commitLine _ _ _⟩
    · simp [specClockSeg] at hw
      rcases hw with hw | hw <;>
        exact ⟨_, by rw [hw], pLine_ne_commitLine _ _ _⟩
  · intro cl hcl
    generalize hd : Cpu.clamp_all c = d at hcl ⊢
    obtain ⟨don, dcl, dgov, didx, dst⟩ := d
    simp only at hcl
    subst hcl
    simp [specClockSeg]
  · rw [h1]
    simp [List.count_append, count_commit_onlineSeg, count_commit_manualSeg,
      count_commit_clockSeg, count_commit_govSeg]

theorem C1_set_all_write_order_witness :
    ∃ mode ps,
      envAllOk.modeRead = some mode ∧
      (Cpu.on_set cW1 envAllOk 0).tr =
        specOnlineSeg (Cpu.clamp_all cW1) ++ specManualSeg mode ++ ps ++
          [W.clock commitLine] ++ specGovSeg (Cpu.clamp_all cW1) ∧
      (∀ w ∈ ps, ∃ s, w = W.clock s ∧ s ≠ commitLine) ∧
      (∀ cl, (Cpu.clamp_all cW1).clock_limits = some cl →
        ps = [W.clock (pLine ((Cpu.clamp_all cW1).index / 2) 1 cl.max),
              W.clock (pLine ((Cpu.clamp_all cW1).index / 2) 0 cl.min)]) ∧
      (Cpu.on_set cW1 envAllOk 0).tr.count (W.clock commitLine) = 1 :=
  C1_set_all_write_order cW1 envAllOk 0 (by decide)

/-! ## C2 -/

/-- C2: in the clamp step, the min bound is clamped into
`[min-envelope.min, max-envelope.min] = [1400, 3500]` and the max bound
into `[min-envelope.max, max-envelope.max] = [500, 3500]`, the envelope
constants being `min = {max: 500, min: 1400}` and
`max = {max: 3500, min: 3500}`; in particular a desired
`{min: 100, max: 9000}` clamps to `{min: 1400, max: 3500}`. -/
theorem C2_clamp_envelopes (c : Cpu) (cl : MinMax Nat)
    (h : c.clock_limits = some cl) :
    (Cpu.clamp_all c).clock_limits =
      some ⟨rustClamp cl.min 1400 3500, rustClamp cl.max 500 3500⟩ ∧
    Cpu.min.clock_limits = some ⟨1400, 500⟩ ∧
    Cpu.max.clock_limits = some ⟨3500, 3500⟩ ∧
    (Cpu.clamp_all
        ⟨true, some ⟨100, 9000⟩, "schedutil", 0, ⟨false, false, false⟩⟩).clock_limits =
      some ⟨1400, 3500⟩ := by
  refine ⟨clamp_all_eval c cl h, by decide, by decide, by decide⟩

theorem C2_clamp_envelopes_witness :
    (Cpu.clamp_all cW1).clock_limits =
      some ⟨rustClamp 1000 1400 3500, rustClamp 2000 500 3500⟩ ∧
    Cpu.min.clock_limits = some ⟨1400, 500⟩ ∧
    Cpu.max.clock_limits = some ⟨3500, 3500⟩ ∧
    (Cpu.clamp_all
        ⟨true, some ⟨100, 9000⟩, "schedutil", 0, ⟨false, false, false⟩⟩).clock_limits =
      some ⟨1400, 3500⟩ :=
  C2_clamp_envelopes cW1 ⟨1000, 2000⟩ rfl

/-! ## C6 -/

/-- C6 fails on the code: the desired bounds `{min: 100, max: 600}` clamp
to `{min: 1400, max: 600}`, whose min exceeds its max — the per-field
clamp ranges overlap only above 1400, so the claimed `min <= max`
invariant does not hold after `clamp_all`. -/
theorem C6_counterexample :
    (Cpu.clamp_all
        ⟨true, some ⟨100, 600⟩, "schedutil", 0, ⟨false, false, false⟩⟩).clock_limits =
      some ⟨1400, 600⟩ ∧ ¬ (1400 ≤ 600) := by decide

/-- C6 amended: after `clamp_all`, a present `clock_limits` satisfies
`min ∈ [1400, 3500]` and `max ∈ [500, 3500]`; `min <= max` holds only
under the additional assumptions that the desired bounds were ordered and
the desired max was at least 1400 (the min-envelope's min). -/
theorem C6_clamped_bounds (c : Cpu) (cl cl' : MinMax Nat)
    (h : c.clock_limits = some cl)
    (h2 : (Cpu.clamp_all c).clock_limits = some cl') :
    (1400 ≤ cl'.min ∧ cl'.min ≤ 3500) ∧ (500 ≤ cl'.max ∧ cl'.max ≤ 3500) ∧
    (cl.min ≤ cl.max → 1400 ≤ cl.max → cl'.min ≤ cl'.max) := by
  rw [clamp_all_eval c cl h] at h2
  have h3 : cl' = ⟨rustClamp cl.min 1400 3500, rustClamp cl.max 500 3500⟩ :=
    (Option.some.injEq _ _).mp h2.symm
  subst h3
  refine ⟨?_, ?_, ?_⟩ <;> simp only [rustClamp] <;> split_ifs <;> omega

theorem C6_clamped_bounds_witness :
    (1400 ≤ (1400 : Nat) ∧ (1400 : Nat) ≤ 3500) ∧
    (500 ≤ (2000 : Nat) ∧ (2000 : Nat) ≤ 3500) ∧
    ((1000 : Nat) ≤ 2000 → (1400 : Nat) ≤ 2000 → (1400 : Nat) ≤ 2000) := by
  have h := C6_clamped_bounds cW1 ⟨1000, 2000⟩ ⟨1400, 2000⟩ rfl (by decide)
  exact h

/-! ## C4 -/

/-- A core whose desired limits are out of the legal envelope. -/
def cR : Cpu := ⟨true, some ⟨100, 9000⟩, "schedutil", 0, ⟨false, false, false⟩⟩

/-- `cR` with `is_resuming` forced true (the resume snapshot). -/
def cRsnap : Cpu := ⟨true, some ⟨100, 9000⟩, "schedutil", 0, ⟨false, false, true⟩⟩

/-- A core whose desired limits are already inside the legal envelope. -/
def cR2 : Cpu := ⟨true, some ⟨1500, 2000⟩, "schedutil", 2, ⟨false, true, false⟩⟩

/-- C4 fails on the code: `on_resume` skips the clamp step of the §4.2
protocol, so for desired limits `{min: 100, max: 9000}` it writes the raw
line `"p 0 1 9000\n"` while `on_set` of the same snapshot writes the
clamped `"p 0 1 3500\n"` — the behaviours differ. -/
theorem C4_counterexample :
    (Cpu.on_resume cR envAllOk 0).tr ≠ (Cpu.on_set cRsnap envAllOk 0).tr ∧
    W.clock (pLine 0 1 9000) ∈ (Cpu.on_resume cR envAllOk 0).tr ∧
    W.clock (pLine 0 1 3500) ∈ (Cpu.on_set cRsnap envAllOk 0).tr := by decide

/-- `clamp_all` is the identity on a core whose desired limits are already
inside the per-field envelopes. -/
theorem clamp_all_id (c : Cpu) (cl : MinMax Nat) (h : c.clock_limits = some cl)
    (h1 : 1400 ≤ cl.min) (h2 : cl.min ≤ 3500) (h3 : 500 ≤ cl.max)
    (h4 : cl.max ≤ 3500) : Cpu.clamp_all c = c := by
  have e1 : rustClamp cl.min 1400 3500 = cl.min := by
    unfold rustClamp; split_ifs <;> omega
  have e2 : rustClamp cl.max 500 3500 = cl.max := by
    unfold rustClamp; split_ifs <;> omega
  obtain ⟨con, ccl, cgov, cidx, cst⟩ := c
  simp only at h
  subst h
  obtain ⟨clmin, clmax⟩ := cl
  simp only at e1 e2
  have : Cpu.clamp_all ⟨con, some ⟨clmin, clmax⟩, cgov, cidx, cst⟩ =
      ⟨con, some ⟨rustClamp clmin 1400 3500, rustClamp clmax 500 3500⟩, cgov, cidx, cst⟩ := rfl
  rw [this, e1, e2]

/-- C4 amended: `on_resume` runs `set_all` on the `is_resuming := true`
snapshot of the core, skipping the clamp step; when the desired limits are
already inside the envelope this coincides with `on_set` of that
snapshot, and on success the two clock-bound writes and the commit are
always performed (in order), even if the bounds equal the last applied
values. -/
theorem C4_resume_protocol (c : Cpu) (e : Env) (n : Nat) (cl : MinMax Nat)
    (hcl : c.clock_limits = some cl)
    (h1 : 1400 ≤ cl.min) (h2 : cl.min ≤ 3500) (h3 : 500 ≤ cl.max)
    (h4 : cl.max ≤ 3500)
    (hok : (Cpu.on_resume c e n).outcome = Outcome.ok) :
    (Cpu.on_resume c e n =
      ⟨(Cpu.set_all { c with state.is_resuming := true } e n).outcome,
       (Cpu.set_all { c with state.is_resuming := true } e n).tr,
       (Cpu.set_all { c with state.is_resuming := true } e n).next⟩) ∧
    (Cpu.on_set { c with state.is_resuming := true } e n =
      Cpu.set_all { c with state.is_resuming := true } e n) ∧
    [W.clock (pLine (c.index / 2) 1 cl.max),
     W.clock (pLine (c.index / 2) 0 cl.min),
     W.clock commitLine].Sublist (Cpu.on_resume c e n).tr := by
  refine ⟨rfl, ?_, ?_⟩
  · unfold Cpu.on_set
    rw [clamp_all_id { c with state.is_resuming := true } cl hcl h1 h2 h3 h4]
  · have hok2 : (Cpu.set_all { c with state.is_resuming := true } e n).outcome =
        Outcome.ok := hok
    obtain ⟨mode, hm, b, htr, hcpu⟩ :=
      set_all_ok_shape { c with state.is_resuming := true } e n hok2
    have htr2 : (Cpu.on_resume c e n).tr =
        (Cpu.set_all { c with state.is_resuming := true } e n).tr := rfl
    rw [htr2, htr]
    have hseg : specClockSeg { c with state.is_resuming := true } =
        [W.clock (pLine (c.index / 2) 1 cl.max),
         W.clock (pLine (c.index / 2) 0 cl.min)] := by
      obtain ⟨con, ccl, cgov, cidx, cst⟩ := c
      simp only at hcl
      subst hcl
      simp [specClockSeg]
    rw [hseg]
    have hassoc :
        specOnlineSeg { c with state.is_resuming := true } ++
          specManualSeg mode ++
          [W.clock (pLine (c.index / 2) 1 cl.max),
           W.clock (pLine (c.index / 2) 0 cl.min)] ++
          [W.clock commitLine] ++ specGovSeg { c with state.is_resuming := true } =
        (specOnlineSeg { c with state.is_resuming := true } ++ specManualSeg mode) ++
          ([W.clock (pLine (c.index / 2) 1 cl.max),
            W.clock (pLine (c.index / 2) 0 cl.min),
            W.clock commitLine] ++ specGovSeg { c with state.is_resuming := true }) := by
      simp [List.append_assoc]
    rw [hassoc]
    exact (List.sublist_append_left _ _).trans (List.sublist_append_right _ _)

theorem C4_resume_protocol_witness :
    (Cpu.on_resume cR2 envAllOk 0 =
      ⟨(Cpu.set_all { cR2 with state.is_resuming := true } envAllOk 0).outcome,
       (Cpu.set_all { cR2 with state.is_resuming := true } envAllOk 0).tr,
       (Cpu.set_all { cR2 with state.is_resuming := true } envAllOk 0).next⟩) ∧
    (Cpu.on_set { cR2 with state.is_resuming := true } envAllOk 0 =
      Cpu.set_all { cR2 with state.is_resuming := true } envAllOk 0) ∧
    [W.clock (pLine (cR2.index / 2) 1 2000),
     W.clock (pLine (cR2.index / 2) 0 1500),
     W.clock commitLine].Sublist (Cpu.on_resume cR2 envAllOk 0).tr :=
  C4_resume_protocol cR2 envAllOk 0 ⟨1500, 2000⟩ rfl (by decide) (by decide)
    (by decide) (by decide) (by decide)

/-! ## C9 -/

/-- An environment whose performance-mode read fails. -/
def envNoMode : Env := { envAllOk with modeRead := none }

/-- C9 fails on the code: `set_all` unwraps the performance-mode read, so
a failed read makes `Cpu::on_set` panic instead of returning a typed
error. -/
theorem C9_counterexample :
    (Cpu.on_set cW1 envNoMode 0).outcome = Outcome.panicked := by decide

/-- An outcome that is success or a CPU-tagged error. -/
def okOrCpuErr (o : Outcome) : Prop :=
  o = Outcome.ok ∨ ∃ er, o = Outcome.err er ∧ er.setting = SettingVariant.cpu

theorem govStage_outcome (c : Cpu) (e : Env) (n : Nat) (tr : List W) :
    okOrCpuErr (Cpu.govStage c e n tr).outcome := by
  unfold Cpu.govStage okOrCpuErr
  split
  · split
    · left; rfl
    · right; exact ⟨_, rfl, rfl⟩
  · left; rfl

theorem commitStage_outcome (c : Cpu) (e : Env) (n : Nat) (tr : List W) :
    okOrCpuErr (Cpu.commitStage c e n tr).outcome := by
  unfold Cpu.commitStage
  split
  · exact govStage_outcome _ _ _ _
  · right; exact ⟨_, rfl, rfl⟩

theorem clockStage_outcome (c : Cpu) (e : Env) (n : Nat) (tr : List W) :
    okOrCpuErr (Cpu.clockStage c e n tr).outcome := by
  obtain ⟨con, ccl, cgov, cidx, ⟨cset, cdo, cres⟩⟩ := c
  rcases ccl with _ | cl
  · unfold Cpu.clockStage
    split
    · simp_all
    · split
      · split
        · split
          · exact commitStage_outcome _ _ _ _
          · right; exact ⟨_, rfl, rfl⟩
        · right; exact ⟨_, rfl, rfl⟩
      · exact commitStage_outcome _ _ _ _
  · unfold Cpu.clockStage
    simp only
    split
    · split
      · exact commitStage_outcome _ _ _ _
      · right; exact ⟨_, rfl, rfl⟩
    · right; exact ⟨_, rfl, rfl⟩

theorem modeStage_outcome (c : Cpu) (e : Env) (n : Nat) (tr : List W)
    (m : String) (hm : e.modeRead = some m) :
    okOrCpuErr (Cpu.modeStage c e n tr).outcome := by
  unfold Cpu.modeStage
  simp only [hm]
  · by_cases hmm : (m != "manual") = true
    · simp only [hmm, if_true]
      by_cases hw : e.writeOk n = true
      · simp only [hw, if_true]
        exact clockStage_outcome _ _ _ _
      · simp only [hw, if_false]
        right; exact ⟨_, rfl, rfl⟩
    · simp only [hmm, if_false]
      exact clockStage_outcome _ _ _ _

/-- C9 amended: whenever the performance-mode read succeeds, `Cpu::on_set`
returns either success or a `SettingError` tagged with the CPU setting
category, for every combination of write successes and failures; when
that read fails the code panics instead (see the counterexample). -/
theorem C9_on_set_total (c : Cpu) (e : Env) (n : Nat) (m : String)
    (hm : e.modeRead = some m) :
    (Cpu.on_set c e n).outcome = Outcome.ok ∨
    ∃ er, (Cpu.on_set c e n).outcome = Outcome.err er ∧
      er.setting = SettingVariant.cpu := by
  unfold Cpu.on_set Cpu.set_all
  by_cases ho : ((Cpu.clamp_all c).index != 0 &&
      (Cpu.clamp_all c).state.do_set_online) = true
  · simp only [ho, if_true]
    by_cases hw : e.writeOk n = true
    · simp only [hw, if_true]
      exact modeStage_outcome _ _ _ _ m hm
    · simp only [hw, if_false]
      right; exact ⟨_, rfl, rfl⟩
  · simp only [ho, if_false, Bool.false_eq_true]
    exact modeStage_outcome _ _ _ _ m hm

theorem C9_on_set_total_witness :
    (Cpu.on_set cW1 envAllOk 0).outcome = Outcome.ok ∨
    ∃ er, (Cpu.on_set cW1 envAllOk 0).outcome = Outcome.err er ∧
      er.setting = SettingVariant.cpu :=
  C9_on_set_total cW1 envAllOk 0 "manual" rfl

/-! ## C5 -/

/-- A plain online core with no clock override. -/
def mkCore (i : Nat) : Cpu := ⟨true, none, "g", i, ⟨false, false, false⟩⟩

/-- An 8-core ensemble, SMT desired on, SMT toggle not exposed. -/
def cs8 : Cpus := { cpus := (List.range 8).map mkCore, smt := true, smt_capable := false }

/-- Exactly the 9th write (index 8: core 3's online write here) fails. -/
def e5 : Env := { envAllOk with writeOk := fun n => n != 8 }

/-- C5 fails on the code: when core 3's online write fails, core 3's
governor write is skipped (as claimed) but core 4's apply is also
prevented — the `?` in the ensemble loop stops the whole pass. -/
theorem C5_counterexample :
    (Cpus.on_set cs8 e5 0).outcome ≠ Outcome.ok ∧
    W.online 3 1 ∈ (Cpus.on_set cs8 e5 0).tr ∧
    W.governor 3 "g" ∉ (Cpus.on_set cs8 e5 0).tr ∧
    W.online 4 1 ∉ (Cpus.on_set cs8 e5 0).tr ∧
    W.governor 4 "g" ∉ (Cpus.on_set cs8 e5 0).tr := by decide

/-- C5 amended: a per-core failure ends the ensemble pass: the failing
core's `on_set` result becomes the pass result, later cores are untouched
and contribute no writes; a failing online-write leaves only that single
attempted write in the core's trace (so its governor write does not
occur); and a resume failure likewise stops `Cpus::on_resume` at the
failing core. -/
theorem C5_failure_stops_pass (smt : Bool) (e : Env) (c : Cpu)
    (rest : List Cpu) (i n : Nat) (c2 : Cpu) (rest2 : List Cpu) (n2 : Nat)
    (hfail : (Cpu.on_set { c with state.do_set_online := smt || (i % 2 == 0) } e n).outcome ≠
      Outcome.ok)
    (h2fail : (Cpu.on_resume c2 e n2).outcome ≠ Outcome.ok) :
    (Cpus.applyFrom smt e (c :: rest) i n =
      ⟨(Cpu.on_set { c with state.do_set_online := smt || (i % 2 == 0) } e n).outcome,
       (Cpu.on_set { c with state.do_set_online := smt || (i % 2 == 0) } e n).cpu :: rest,
       (Cpu.on_set { c with state.do_set_online := smt || (i % 2 == 0) } e n).tr,
       (Cpu.on_set { c with state.do_set_online := smt || (i % 2 == 0) } e n).next⟩) ∧
    ((({ c with state.do_set_online := smt || (i % 2 == 0) } : Cpu).index != 0 &&
        ({ c with state.do_set_online := smt || (i % 2 == 0) } : Cpu).state.do_set_online) = true →
      e.writeOk n = false →
      (Cpu.on_set { c with state.do_set_online := smt || (i % 2 == 0) } e n).tr =
        [W.online c.index (if c.online then 1 else 0)]) ∧
    (Cpus.resumeList e (c2 :: rest2) n2 =
      ⟨(Cpu.on_resume c2 e n2).outcome, (Cpu.on_resume c2 e n2).tr,
       (Cpu.on_resume c2 e n2).next⟩) := by
  refine ⟨?_, ?_, ?_⟩
  · unfold Cpus.applyFrom
    rcases hro : (Cpu.on_set { c with state.do_set_online := smt || (i % 2 == 0) } e n).outcome
      with _ | er | _
    · exact absurd hro hfail
    · simp only [hro]
    · simp only [hro]
  · intro hcond hwf
    have hf := clamp_all_fields { c with state.do_set_online := smt || (i % 2 == 0) }
    unfold Cpu.on_set Cpu.set_all
    have hcond2 :
        ((Cpu.clamp_all { c with state.do_set_online := smt || (i % 2 == 0) }).index != 0 &&
          (Cpu.clamp_all { c with state.do_set_online := smt || (i % 2 == 0) }).state.do_set_online) =
          true := by
      rw [hf.1, hf.2.2.2]
      exact hcond
    simp only [hcond2, if_true, hwf, Bool.false_eq_true, if_false]
    simp [hf.1, hf.2.1]
  · unfold Cpus.resumeList
    rcases hro : (Cpu.on_resume c2 e n2).outcome with _ | er | _
    · exact absurd hro h2fail
    · simp only [hro]
    · simp only [hro]

/-- An environment in which every write fails. -/
def envNoWrites : Env := { envAllOk with writeOk := fun _ => false }

theorem C5_failure_stops_pass_witness :
    (Cpus.applyFrom true envNoWrites (mkCore 3 :: [mkCore 4]) 3 0 =
      ⟨(Cpu.on_set { mkCore 3 with state.do_set_online := true || (3 % 2 == 0) } envNoWrites 0).outcome,
       (Cpu.on_set { mkCore 3 with state.do_set_online := true || (3 % 2 == 0) } envNoWrites 0).cpu :: [mkCore 4],
       (Cpu.on_set { mkCore 3 with state.do_set_online := true || (3 % 2 == 0) } envNoWrites 0).tr,
       (Cpu.on_set { mkCore 3 with state.do_set_online := true || (3 % 2 == 0) } envNoWrites 0).next⟩) ∧
    ((({ mkCore 3 with state.do_set_online := true || (3 % 2 == 0) } : Cpu).index != 0 &&
        ({ mkCore 3 with state.do_set_online := true || (3 % 2 == 0) } : Cpu).state.do_set_online) = true →
      envNoWrites.writeOk 0 = false →
      (Cpu.on_set { mkCore 3 with state.do_set_online := true || (3 % 2 == 0) } envNoWrites 0).tr =
        [W.online (mkCore 3).index (if (mkCore 3).online then 1 else 0)]) ∧
    (Cpus.resumeList envNoWrites (mkCore 1 :: [mkCore 2]) 0 =
      ⟨(Cpu.on_resume (mkCore 1) envNoWrites 0).outcome,
       (Cpu.on_resume (mkCore 1) envNoWrites 0).tr,
       (Cpu.on_resume (mkCore 1) envNoWrites 0).next⟩) :=
  C5_failure_stops_pass true envNoWrites (mkCore 3) [mkCore 4] 3 0
    (mkCore 1) [mkCore 2] 0
    (by set_option maxRecDepth 4000 in decide)
    (by set_option maxRecDepth 4000 in decide)

/-! ## C3: membership lemmas and the ensemble induction -/

theorem online_mem_onlineSeg (c : Cpu) (a v : Nat) :
    W.online a v ∈ specOnlineSeg c ↔
      ((c.index != 0 && c.state.do_set_online) = true ∧ a = c.index ∧
       v = (if c.online then 1 else 0)) := by
  unfold specOnlineSeg
  by_cases hc : (c.index != 0 && c.state.do_set_online) = true
  · simp [hc, W.online.injEq]
  · simp [hc]

theorem online_not_mem_manualSeg (m : String) (a v : Nat) :
    W.online a v ∉ specManualSeg m := by
  unfold specManualSeg; split <;> simp

theorem online_not_mem_clockSeg (c : Cpu) (a v : Nat) :
    W.online a v ∉ specClockSeg c := by
  obtain ⟨con, ccl, cgov, cidx, ⟨cset, cdo, cres⟩⟩ := c
  rcases ccl with _ | cl
  · unfold specClockSeg
    split
    · simp_all
    · split <;> simp
  · simp [specClockSeg]

theorem online_not_mem_govSeg (c : Cpu) (a v : Nat) :
    W.online a v ∉ specGovSeg c := by
  unfold specGovSeg; split <;> simp

theorem set_all_ok_online_mem (c : Cpu) (e : Env) (n : Nat)
    (h : (Cpu.set_all c e n).outcome = Outcome.ok) (a v : Nat) :
    W.online a v ∈ (Cpu.set_all c e n).tr ↔
      (a = c.index ∧ (c.index != 0 && c.state.do_set_online) = true ∧
       v = (if c.online then 1 else 0)) := by
  obtain ⟨mode, hm, b, htr, hcpu⟩ := set_all_ok_shape c e n h
  rw [htr]
  simp only [List.mem_append, List.mem_singleton]
  constructor
  · rintro ((((h1 | h2) | h3) | h4) | h5)
    · obtain ⟨x, y, z⟩ := (online_mem_onlineSeg c a v).mp h1
      exact ⟨y, x, z⟩
    · exact absurd h2 (online_not_mem_manualSeg mode a v)
    · exact absurd h3 (online_not_mem_clockSeg c a v)
    · simp at h4
    · exact absurd h5 (online_not_mem_govSeg c a v)
  · rintro ⟨h1, h2, h3⟩
    exact Or.inl (Or.inl (Or.inl (Or.inl ((online_mem_onlineSeg c a v).mpr ⟨h2, h1, h3⟩))))

theorem on_set_ok_online_mem (c : Cpu) (e : Env) (n : Nat)
    (h : (Cpu.on_set c e n).outcome = Outcome.ok) (a v : Nat) :
    W.online a v ∈ (Cpu.on_set c e n).tr ↔
      (a = c.index ∧ (c.index != 0 && c.state.do_set_online) = true ∧
       v = (if c.online then 1 else 0)) := by
  unfold Cpu.on_set at h ⊢
  rw [set_all_ok_online_mem _ _ _ h a v]
  obtain ⟨h1, h2, h3, h4⟩ := clamp_all_fields c
  rw [h1, h2, h4]

theorem on_set_ok_cpu_state (c : Cpu) (e : Env) (n : Nat)
    (h : (Cpu.on_set c e n).outcome = Outcome.ok) :
    (Cpu.on_set c e n).cpu.state.do_set_online = c.state.do_set_online := by
  unfold Cpu.on_set at h ⊢
  obtain ⟨mode, hm, b, htr, hcpu⟩ := set_all_ok_shape (Cpu.clamp_all c) e n h
  rw [hcpu]
  have h4 := (clamp_all_fields c).2.2.2
  simp only []
  rw [h4]

theorem applyFrom_ok (smt : Bool) (e : Env) (cpus : List Cpu) :
    ∀ (i n : Nat), (Cpus.applyFrom smt e cpus i n).outcome = Outcome.ok →
      ((Cpus.applyFrom smt e cpus i n).cpus.length = cpus.length ∧
       (∀ j, j < cpus.length →
         ((Cpus.applyFrom smt e cpus i n).cpus[j]?.map
            (fun x => x.state.do_set_online)) = some (smt || ((i + j) % 2 == 0))) ∧
       (∀ a v, W.online a v ∈ (Cpus.applyFrom smt e cpus i n).tr ↔
         (∃ j c0, cpus[j]? = some c0 ∧ a = c0.index ∧
           (c0.index != 0 && (smt || ((i + j) % 2 == 0))) = true ∧
           v = (if c0.online then 1 else 0)))) := by
  induction cpus with
  | nil =>
      intro i n h
      refine ⟨rfl, ?_, ?_⟩
      · intro j hj
        simp at hj
      · intro a v
        simp [Cpus.applyFrom]
  | cons c rest ih =>
      intro i n h
      rcases hro : (Cpu.on_set { c with state.do_set_online := smt || (i % 2 == 0) } e n).outcome
        with _ | er | _
      · unfold Cpus.applyFrom at h ⊢
        simp only [hro] at h ⊢
        obtain ⟨ih1, ih2, ih3⟩ := ih (i + 1)
          (Cpu.on_set { c with state.do_set_online := smt || (i % 2 == 0) } e n).next h
        refine ⟨by simp [ih1], ?_, ?_⟩
        · intro j hj
          cases j with
          | zero =>
              have hs := on_set_ok_cpu_state
                { c with state.do_set_online := smt || (i % 2 == 0) } e n hro
              simp only [List.getElem?_cons_zero, Option.map_some', hs]
              simp
          | succ j =>
              simp only [List.getElem?_cons_succ]
              have hj2 : j < rest.length := by
                simp at hj
                omega
              have := ih2 j hj2
              have harith : i + 1 + j = i + (j + 1) := by omega
              rw [harith] at this
              exact this
        · intro a v
          simp only [List.mem_append]
          rw [on_set_ok_online_mem _ _ _ hro a v, ih3 a v]
          constructor
          · rintro (⟨h1, h2, h3⟩ | ⟨j, c0, hj, h1, h2, h3⟩)
            · refine ⟨0, c, by simp, h1, ?_, h3⟩
              simpa using h2
            · refine ⟨j + 1, c0, by simpa using hj, h1, ?_, h3⟩
              have harith : i + 1 + j = i + (j + 1) := by omega
              rw [harith] at h2
              exact h2
          · rintro ⟨j, c0, hj, h1, h2, h3⟩
            cases j with
            | zero =>
                simp only [List.getElem?_cons_zero, Option.some.injEq] at hj
                subst hj
                left
                refine ⟨h1, ?_, h3⟩
                simpa using h2
            | succ j =>
                simp only [List.getElem?_cons_succ] at hj
                right
                refine ⟨j, c0, hj, h1, ?_, h3⟩
                have harith : i + 1 + j = i + (j + 1) := by omega
                rw [harith]
                exact h2
      · unfold Cpus.applyFrom at h
        simp only [hro] at h
        exact absurd h (by simp)
      · unfold Cpus.applyFrom at h
        simp only [hro] at h
        exact absurd h (by simp)

theorem applyFrom_mem_translate (smt : Bool) (e : Env) (cpus : List Cpu)
    (n : Nat) (hok : (Cpus.applyFrom smt e cpus 0 n).outcome = Outcome.ok)
    (hidx : ∀ j, j < cpus.length →
      cpus[j]?.map (fun c0 => c0.index) = some j) (a v : Nat) :
    W.online a v ∈ (Cpus.applyFrom smt e cpus 0 n).tr ↔
      (a < cpus.length ∧ a ≠ 0 ∧ (smt = true ∨ a % 2 = 0) ∧
       cpus[a]?.map (fun c0 => if c0.online then (1 : Nat) else 0) = some v) := by
  obtain ⟨a1, a2, a3⟩ := applyFrom_ok smt e cpus 0 n hok
  rw [a3 a v]
  constructor
  · rintro ⟨j, c0, hj, ha, hb, hv⟩
    have hlt : j < cpus.length := by
      rcases List.getElem?_eq_some.mp hj with ⟨hh, _⟩
      exact hh
    have hix := hidx j hlt
    rw [hj] at hix
    simp only [Option.map_some', Option.some.injEq] at hix
    simp only [Bool.and_eq_true, bne_iff_ne, Bool.or_eq_true, beq_iff_eq,
      Nat.zero_add] at hb
    subst ha
    subst hix
    refine ⟨hlt, hb.1, hb.2, ?_⟩
    rw [hj]
    simp [hv]
  · rintro ⟨hlt, hne, hsm, hv⟩
    rcases hx : cpus[a]? with _ | c0
    · rw [hx] at hv; simp at hv
    · rw [hx] at hv
      simp only [Option.map_some', Option.some.injEq] at hv
      have hix := hidx a hlt
      rw [hx] at hix
      simp only [Option.map_some', Option.some.injEq] at hix
      refine ⟨a, c0, hx, hix.symm, ?_, hv.symm⟩
      simp only [Bool.and_eq_true, bne_iff_ne, Bool.or_eq_true, beq_iff_eq,
        Nat.zero_add]
      exact ⟨by rw [hix]; exact hne, hsm⟩

theorem applyFrom_state_translate (smt : Bool) (e : Env) (cpus : List Cpu)
    (n : Nat) (hok : (Cpus.applyFrom smt e cpus 0 n).outcome = Outcome.ok)
    (j : Nat) (hj : j < cpus.length) :
    ((Cpus.applyFrom smt e cpus 0 n).cpus[j]?.map
      (fun x => x.state.do_set_online)) = some (smt || (j % 2 == 0)) := by
  obtain ⟨a1, a2, a3⟩ := applyFrom_ok smt e cpus 0 n hok
  have := a2 j hj
  rwa [Nat.zero_add] at this

/-- C3: during a successful `Cpus::on_set` pass over position-indexed
cores, core `i`'s online file is written — with its desired flag as 0/1 —
iff `i != 0` and (`smt` or `i` is even); core 0 is never written, and with
`smt = false` odd cores are untouched by the online step; moreover every
core's `do_set_online` is set to `smt || (i % 2 == 0)` (for 8 cores with
`smt = false` that is true exactly on 0, 2, 4, 6). -/
theorem C3_online_iff (cs : Cpus) (e : Env) (n : Nat)
    (hok : (Cpus.on_set cs e n).outcome = Outcome.ok)
    (hidx : ∀ j, j < cs.cpus.length →
      cs.cpus[j]?.map (fun c0 => c0.index) = some j) :
    (∀ a v, W.online a v ∈ (Cpus.on_set cs e n).tr ↔
      (a < cs.cpus.length ∧ a ≠ 0 ∧ (cs.smt = true ∨ a % 2 = 0) ∧
       cs.cpus[a]?.map (fun c0 => if c0.online then (1 : Nat) else 0) = some v)) ∧
    (∀ j, j < cs.cpus.length →
      ((Cpus.on_set cs e n).cpus[j]?.map (fun x => x.state.do_set_online)) =
        some (cs.smt || (j % 2 == 0))) := by
  unfold Cpus.on_set at hok ⊢
  by_cases hcap : cs.smt_capable = true
  · simp only [hcap, if_true] at hok ⊢
    by_cases hw : e.writeOk n = true
    · simp only [hw, if_true] at hok ⊢
      refine ⟨?_, ?_⟩
      · intro a v
        constructor
        · intro hmm
          rcases List.mem_cons.mp hmm with hq | hq
          · exact W.noConfusion hq
          · exact (applyFrom_mem_translate cs.smt e cs.cpus (n + 1) hok hidx a v).mp hq
        · intro hr
          exact List.mem_cons_of_mem _
            ((applyFrom_mem_translate cs.smt e cs.cpus (n + 1) hok hidx a v).mpr hr)
      · intro j hj
        exact applyFrom_state_translate cs.smt e cs.cpus (n + 1) hok j hj
    · simp only [hw, Bool.false_eq_true, if_false] at hok
      exact absurd hok (by simp)
  · simp only [hcap, if_false, Bool.false_eq_true] at hok ⊢
    refine ⟨?_, ?_⟩
    · intro a v
      exact applyFrom_mem_translate cs.smt e cs.cpus n hok hidx a v
    · intro j hj
      exact applyFrom_state_translate cs.smt e cs.cpus n hok j hj

/-- An 8-core ensemble with SMT disabled and the SMT toggle exposed. -/
def cs8b : Cpus := { cpus := (List.range 8).map mkCore, smt := false, smt_capable := true }

theorem C3_online_iff_witness :
    W.online 2 1 ∈ (Cpus.on_set cs8b envAllOk 0).tr ↔
      (2 < cs8b.cpus.length ∧ 2 ≠ 0 ∧ (cs8b.smt = true ∨ 2 % 2 = 0) ∧
       cs8b.cpus[2]?.map (fun c0 => if c0.online then (1 : Nat) else 0) = some 1) :=
  (C3_online_iff cs8b envAllOk 0
    (by set_option maxRecDepth 8000 in decide)
    (by decide)).1 2 1

/-! ## C7 -/

/-- A plain persisted core record. -/
def cjPlain : CpuJson := ⟨true, none, "g"⟩

/-- C7: the code panics instead.  With live range `"0-7"` (8 cores) and a
persisted sequence of 6 records, the backfill loop
`for i in result.len()..sys.len() { result.push(sys.remove(i)) }` removes
from a shrinking vector at a growing index and calls `Vec::remove` out of
bounds (`none` in the model); the claimed truncation of longer sequences
does hold (9 records yield 8 cores). -/
theorem C7_backfill_panics :
    Cpus.from_json (List.replicate 6 cjPlain) 0 envAllOk = none ∧
    (Cpus.from_json (List.replicate 9 cjPlain) 0 envAllOk).map
      (fun cs => cs.cpus.length) = some 8 ∧
    (Cpus.from_json (List.replicate 7 cjPlain) 0 envAllOk).map
      (fun cs => cs.cpus.length) = some 8 := by
  set_option maxRecDepth 8000 in decide

/-! ## C8 -/

/-- An environment whose present-range file has unparsable content. -/
def envUnparsable : Env := { envAllOk with presentRead := some "zen" }

/-- An environment whose present-range read fails. -/
def envNoPresent : Env := { envAllOk with presentRead := none }

/-- C8 fails on the code: with present-but-unparsable content the function
returns `none` — no count at all — rather than the fixed fallback count;
the `"0-7"` fallback applies only when the read itself fails. -/
theorem C8_counterexample : Cpus.cpu_count envUnparsable = none := by decide

/-- C8 amended: `cpu_count` returns `Some 8` when the present-range file
reads `"0-7"`, falls back to the built-in `"0-7"` (hence `Some 8`) when
the read fails, and returns `None` — without any thrown failure — when
the content is present but unparsable (here: contains no dash). -/
theorem C8_cpu_count (e1 e2 e3 : Env) (s : String)
    (h1 : e1.presentRead = some "0-7")
    (h2 : e2.presentRead = none)
    (h3 : e3.presentRead = some s)
    (h4 : ∀ ch ∈ s.toList, ch ≠ '-') :
    Cpus.cpu_count e1 = some 8 ∧ Cpus.cpu_count e2 = some 8 ∧
    Cpus.cpu_count e3 = none := by
  refine ⟨?_, ?_, ?_⟩
  · unfold Cpus.cpu_count
    rw [h1]
    decide
  · unfold Cpus.cpu_count
    rw [h2]
    decide
  · unfold Cpus.cpu_count
    rw [h3]
    have hd : afterFirstDash s = none := by
      unfold afterFirstDash
      have : s.toList.findIdx? (fun ch => ch = '-') = none := by
        rw [List.findIdx?_eq_none_iff]
        intro x hx
        simpa using h4 x hx
      rw [this]
    simp [hd]

theorem C8_cpu_count_witness :
    Cpus.cpu_count envAllOk = some 8 ∧ Cpus.cpu_count envNoPresent = some 8 ∧
    Cpus.cpu_count envUnparsable = none :=
  C8_cpu_count envAllOk envNoPresent envUnparsable "zen" rfl rfl rfl (by decide)

/-! ## C10 -/

/-- An environment with unparsable present range but readable SMT file. -/
def envBadPresent : Env := { envAllOk with presentRead := some "bad" }

/-- C10 fails on the code on two counts: `from_json` does not return at
all on a short persisted list (the backfill panic), and `system_default`
sets `smt := false` without consulting the probed status when the core
count is unknown (probed status reads `on` here). -/
theorem C10_counterexample :
    Cpus.from_json [] 0 envAllOk = none ∧
    (Cpus.system_default envBadPresent).smt = false ∧
    (Cpus.system_smt_capabilities envBadPresent).1 = true := by
  set_option maxRecDepth 8000 in decide

/-- C10 amended: whenever `from_json` returns an ensemble, its `smt` flag
is `true` regardless of the persisted data and of the probed SMT status —
the probe only determines `smt_capable` — while `system_default` takes
`smt` from the probed status whenever the core count is known. -/
theorem C10_smt_flags (other : List CpuJson) (version : Nat) (e : Env)
    (cs : Cpus) (h : Cpus.from_json other version e = some cs)
    (m : Nat) (hm : Cpus.cpu_count e = some m) :
    cs.smt = true ∧ cs.smt_capable = (Cpus.system_smt_capabilities e).2 ∧
    (Cpus.system_default e).smt = (Cpus.system_smt_capabilities e).1 := by
  unfold Cpus.from_json at h
  simp only [Option.map_eq_some'] at h
  obtain ⟨r, hfil, hcs⟩ := h
  subst hcs
  refine ⟨rfl, rfl, ?_⟩
  unfold Cpus.system_default
  rw [hm]

/-- The ensemble produced from 8 plain persisted records. -/
def csX : Cpus := ⟨(List.range 8).map (fun i => Cpu.from_json cjPlain 0 i), true, true⟩

theorem C10_smt_flags_witness :
    csX.smt = true ∧ csX.smt_capable = (Cpus.system_smt_capabilities envAllOk).2 ∧
    (Cpus.system_default envAllOk).smt = (Cpus.system_smt_capabilities envAllOk).1 :=
  C10_smt_flags (List.replicate 8 cjPlain) 0 envAllOk csX
    (by set_option maxRecDepth 8000 in decide) 8 (by decide)
